import Mathlib

/-!
Shallow embedding of the feature-flag evaluation engine
(`FeatureManager.ts`): configuration data model, segment matcher,
rollout bucketer and evaluation orchestrator, together with theorems
settling the claims about it.

Conventions of the embedding:
* The dynamically typed `any` feature values are modelled by the closed
  variant `Value` (boolean / string / number), as the engine treats them
  opaquely.
* The mutable `reasoning: string[]` accumulator is modelled by each
  function returning the list of entries it appends; callers concatenate
  them in push order.  Reasoning entries are modelled by the inductive
  `Reason`, one constructor per `reasoning.push` site in the source,
  carrying the data the source interpolates into the message.
* JavaScript object lookup `userAttributes[key]` is modelled by a
  function `String → Option String`; the truthiness test
  `if (!userValue)` is `none` or the empty string.
* `Object.entries(combo)` iteration order is insertion order, so a combo
  is a list of `(attributeKey, tokens)` pairs.
* Exceptions (`throw new Error`) are modelled with `Except String`.
-/

namespace FeaturesPOC

/-- Closed variant modelling the dynamically typed (`any`) feature
values: boolean, string or number; the engine never inspects them. -/
inductive Value where
  | vBool : Bool → Value
  | vStr : String → Value
  | vNum : Int → Value
deriving DecidableEq

/-- A segment's `combo` field: a mapping from attribute key to an
ordered list of match tokens, in insertion order. -/
abbrev Combo := List (String × List String)

/-- The `UserAttributes` mapping from attribute key to string value;
`none` models an absent key (JavaScript `undefined`). -/
abbrev UserAttributes := String → Option String

/-- The `Rollout` interface: `{ percentage: number; secondaryValue: any }`. -/
structure Rollout where
  percentage : Int
  secondaryValue : Value
deriving DecidableEq

/-- The `Segment` interface: `{ combo; value; rollout? }`. -/
structure Segment where
  combo : Combo
  value : Value
  rollout : Option Rollout
deriving DecidableEq

/-- The `Feature` interface: `{ id; description; type; value; segments; rollout? }`. -/
structure Feature where
  id : String
  description : String
  type : String
  value : Value
  segments : List Segment
  rollout : Option Rollout
deriving DecidableEq

/-- The `FeatureGroup` interface: `{ id; description; features }`. -/
structure FeatureGroup where
  id : String
  description : String
  features : List Feature
deriving DecidableEq

/-- The `FeatureConfig` interface: `{ groups: FeatureGroup[] }`. -/
structure FeatureConfig where
  groups : List FeatureGroup
deriving DecidableEq

/-- One reasoning-trace entry; one constructor per `reasoning.push` site
in `FeatureManager.ts`, carrying the interpolated data. -/
inductive Reason where
  | attrNotPresent : String → Reason
  | negationViolated : String → String → String → Reason
  | noMatchingValue : String → Reason
  | segmentMatched : Combo → Reason
  | segmentNotMatched : Combo → Reason
  | evaluatingRollout : String → String → Nat → Int → Reason
  | withinRollout : Value → Reason
  | outsideRollout : Value → Reason
  | segmentRolloutApplied : Int → Value → Value → Reason
  | noSegmentRollout : Reason
  | finalFromSegment : Value → Reason
  | noSegmentsMatched : Reason
  | featureRolloutApplied : Int → Value → Value → Reason
  | noFeatureRollout : Reason
  | finalValue : Value → Reason
deriving DecidableEq

/-- The `FeatureEvaluationResult` interface: `{ value; reasoning }`. -/
structure FeatureEvaluationResult where
  value : Value
  reasoning : List Reason
deriving DecidableEq

/-! ### MurmurHash3 (32-bit)

Model of the `murmurhash` npm dependency's `v3` function (MurmurHash3
x86 32-bit, Gary Court's JavaScript implementation), which is not part
of this repository's sources.  The JavaScript code reads bytes as
`charCodeAt(i) & 0xff`; we model this as the character's code point
modulo 256 (identical for ASCII input).  All 32-bit arithmetic is done
on `Nat` with explicit reduction modulo `2^32`. -/

/-- Reduce modulo `2^32`, the implicit 32-bit truncation of the
JavaScript bitwise operations. -/
def mask32 (n : Nat) : Nat := n % 4294967296

/-- 32-bit multiplication: the JavaScript 16-bit split multiply computes
exactly the product modulo `2^32`. -/
def mul32 (a b : Nat) : Nat := mask32 (a * b)

/-- 32-bit left rotation, modelling `(x << r) | (x >>> (32 - r))`. -/
def rotl32 (x r : Nat) : Nat := mask32 (x <<< r) ||| (x >>> (32 - r))

/-- One block mix of MurmurHash3: transform the 4-byte little-endian
word `k1` and fold it into the running hash `h1`. -/
def murmurMix (h1 k1 : Nat) : Nat :=
  let k1 := mul32 k1 0xcc9e2d51
  let k1 := rotl32 k1 15
  let k1 := mul32 k1 0x1b873593
  let h1 := Nat.xor h1 k1
  let h1 := rotl32 h1 13
  mask32 (h1 * 5 + 0xe6546b64)

/-- Process the 4-byte blocks of the input; returns the running hash and
the remaining (fewer than four) tail bytes. -/
def murmurBlocks : List Nat → Nat → Nat × List Nat
  | b0 :: b1 :: b2 :: b3 :: rest, h1 =>
      murmurBlocks rest (murmurMix h1 (b0 ||| (b1 <<< 8) ||| (b2 <<< 16) ||| (b3 <<< 24)))
  | rest, h1 => (h1, rest)

/-- Fold the tail bytes (the `switch (remainder)` of the JavaScript
implementation, with its fall-through) into the hash. -/
def murmurTail (tail : List Nat) (h1 : Nat) : Nat :=
  match tail with
  | [] => h1
  | bytes =>
    let k1 :=
      match bytes with
      | [b0] => b0
      | [b0, b1] => b0 ||| (b1 <<< 8)
      | [b0, b1, b2] => b0 ||| (b1 <<< 8) ||| (b2 <<< 16)
      | _ => 0
    let k1 := mul32 k1 0xcc9e2d51
    let k1 := rotl32 k1 15
    let k1 := mul32 k1 0x1b873593
    Nat.xor h1 k1

/-- Finalization: xor in the length and apply the avalanche mix. -/
def murmurFinalize (h1 len : Nat) : Nat :=
  let h1 := Nat.xor h1 len
  let h1 := Nat.xor h1 (h1 >>> 16)
  let h1 := mul32 h1 0x85ebca6b
  let h1 := Nat.xor h1 (h1 >>> 13)
  let h1 := mul32 h1 0xc2b2ae35
  Nat.xor h1 (h1 >>> 16)

/-- `murmurhash.v3(key, seed)`: MurmurHash3 x86 32-bit of the string's
bytes (`charCodeAt & 0xff`), returned as an unsigned 32-bit value. -/
def murmurV3 (key : String) (seed : Nat) : Nat :=
  let bytes := key.data.map (fun c => c.toNat % 256)
  let p := murmurBlocks bytes (mask32 seed)
  murmurFinalize (murmurTail p.2 p.1) bytes.length

/-! ### The FeatureManager engine -/

/-- `hashUser(userId, groupId)`: hash `` `${userId}-${groupId}` `` with
MurmurHash3 (seed 0) and reduce to a bucket in `[0, 99]`.  The
JavaScript `Math.abs` is the identity here because `murmurhash.v3`
already returns a non-negative (unsigned 32-bit) value. -/
def hashUser (userId groupId : String) : Nat :=
  murmurV3 (userId ++ "-" ++ groupId) 0 % 100

/-- `evaluateRollout(userId, groupId, rollout, currentValue, reasoning)`:
if the user's bucket is below the rollout percentage keep the current
(pre-rollout) value, otherwise use the rollout's secondary value.
Returns the chosen value and the trace entries this call appends. -/
def evaluateRollout (userId groupId : String) (rollout : Rollout)
    (currentValue : Value) : Value × List Reason :=
  let hash := hashUser userId groupId
  if (hash : Int) < rollout.percentage then
    (currentValue,
      [Reason.evaluatingRollout userId groupId hash rollout.percentage,
       Reason.withinRollout currentValue])
  else
    (rollout.secondaryValue,
      [Reason.evaluatingRollout userId groupId hash rollout.percentage,
       Reason.outsideRollout rollout.secondaryValue])

/-- The JavaScript test `value.startsWith("!")`: true exactly when the
token's first character is `!`. -/
def startsBang (s : String) : Bool :=
  match s.data with
  | [] => false
  | c :: _ => c == '!'

/-- Inner token loop of `matchSegment` for one attribute key: walk the
token list carrying the `matchFound` flag; a violated negation fails the
key (and the whole segment) immediately; at the end, the key is
satisfied exactly when `matchFound` was set (by a positive hit or by a
non-violated negation). -/
def matchTokens (attributeKey userValue : String) :
    List String → Bool → Bool × List Reason
  | [], matchFound =>
      if matchFound then (true, [])
      else (false, [Reason.noMatchingValue attributeKey])
  | tok :: rest, matchFound =>
      if startsBang tok then
        let negatedValue := tok.drop 1
        if userValue = negatedValue then
          (false, [Reason.negationViolated attributeKey userValue negatedValue])
        else
          matchTokens attributeKey userValue rest true
      else
        if userValue = tok then matchTokens attributeKey userValue rest true
        else matchTokens attributeKey userValue rest matchFound

/-- `matchSegment(combo, userAttributes, reasoning)`: conjunction over
the combo's attribute keys.  A key whose user value is absent or falsy
(the empty string) fails the segment immediately; otherwise the key's
token list is evaluated by `matchTokens`.  Returns the verdict and the
trace entries this call appends. -/
def matchSegment (userAttributes : UserAttributes) : Combo → Bool × List Reason
  | [] => (true, [])
  | (attributeKey, values) :: rest =>
      match userAttributes attributeKey with
      | none => (false, [Reason.attrNotPresent attributeKey])
      | some userValue =>
          if userValue = "" then (false, [Reason.attrNotPresent attributeKey])
          else
            let m := matchTokens attributeKey userValue values false
            if m.1 then
              let m2 := matchSegment userAttributes rest
              (m2.1, m.2 ++ m2.2)
            else (false, m.2)

/-- The segment loop of `getFeatureValue`: try the segments in declared
order.  `Sum.inl (v, tr)` models the early `return` on the first match;
`Sum.inr tr` models falling through with the accumulated trace. -/
def evalSegments (userId groupId : String) (userAttributes : UserAttributes) :
    List Segment → Sum (Value × List Reason) (List Reason)
  | [] => .inr []
  | segment :: rest =>
      let m := matchSegment userAttributes segment.combo
      if m.1 then
        match segment.rollout with
        | some rollout =>
            let r := evaluateRollout userId groupId rollout segment.value
            .inl (r.1,
              m.2 ++ [Reason.segmentMatched segment.combo] ++ r.2 ++
                [Reason.segmentRolloutApplied rollout.percentage segment.value
                   rollout.secondaryValue,
                 Reason.finalFromSegment r.1])
        | none =>
            .inl (segment.value,
              m.2 ++ [Reason.segmentMatched segment.combo,
                      Reason.noSegmentRollout,
                      Reason.finalFromSegment segment.value])
      else
        match evalSegments userId groupId userAttributes rest with
        | .inl p => .inl (p.1, m.2 ++ [Reason.segmentNotMatched segment.combo] ++ p.2)
        | .inr tr => .inr (m.2 ++ [Reason.segmentNotMatched segment.combo] ++ tr)

/-- An entry of the feature index: the feature together with its owning
group's id. -/
structure FeatureEntry where
  feature : Feature
  groupId : String
deriving DecidableEq

/-- The constructor's index building: flatten all groups' features into
a map keyed by feature id; a later `set` of the same id overwrites an
earlier one. -/
def buildFeatureMap (groups : List FeatureGroup) : String → Option FeatureEntry :=
  groups.foldl
    (fun m group =>
      group.features.foldl
        (fun m2 feature =>
          fun k => if k = feature.id then some ⟨feature, group.id⟩ else m2 k)
        m)
    (fun _ => none)

/-- The `FeatureManager` state after construction: the feature index,
the current user id and the user attributes. -/
structure FeatureManager where
  featureMap : String → Option FeatureEntry
  userId : String
  userAttributes : UserAttributes

/-- The `FeatureManager` constructor. -/
def mkFeatureManager (config : FeatureConfig) (userId : String)
    (userAttributes : UserAttributes) : FeatureManager :=
  ⟨buildFeatureMap config.groups, userId, userAttributes⟩

/-- `getFeatureValue(featureId)`: look the feature up (throwing when it
is absent), try the segments in order, and otherwise fall back to the
feature's default value and optional feature-level rollout. -/
def getFeatureValue (fm : FeatureManager) (featureId : String) :
    Except String FeatureEvaluationResult :=
  match fm.featureMap featureId with
  | none => .error ("Feature with id \"" ++ featureId ++ "\" not found.")
  | some entry =>
      match evalSegments fm.userId entry.groupId fm.userAttributes
          entry.feature.segments with
      | .inl p => .ok ⟨p.1, p.2⟩
      | .inr tr =>
          match entry.feature.rollout with
          | some rollout =>
              let r := evaluateRollout fm.userId entry.groupId rollout
                entry.feature.value
              .ok ⟨r.1,
                tr ++ [Reason.noSegmentsMatched] ++ r.2 ++
                  [Reason.featureRolloutApplied rollout.percentage
                     entry.feature.value rollout.secondaryValue,
                   Reason.finalValue r.1]⟩
          | none =>
              .ok ⟨entry.feature.value,
                tr ++ [Reason.noSegmentsMatched, Reason.noFeatureRollout,
                       Reason.finalValue entry.feature.value]⟩

/-! ### Claim-statement helpers -/

/-- The value a matching segment contributes: the segment's value,
possibly replaced through the segment's rollout. -/
def segmentOutcome (userId groupId : String) (s : Segment) : Value :=
  match s.rollout with
  | some rollout => (evaluateRollout userId groupId rollout s.value).1
  | none => s.value

/-- Value produced by the segment loop, when it returned early. -/
def loopValue : Sum (Value × List Reason) (List Reason) → Option Value
  | .inl p => some p.1
  | .inr _ => none

/-- Value component of an evaluation outcome, `none` on error. -/
def resultValue : Except String FeatureEvaluationResult → Option Value
  | .ok r => some r.value
  | .error _ => none

/-- Length of the reasoning trace of an evaluation outcome. -/
def resultReasoningLength : Except String FeatureEvaluationResult → Option Nat
  | .ok r => some r.reasoning.length
  | .error _ => none

/-- Stated from the claim's words, for comparison with `buildFeatureMap`:
the `(feature, owning group id)` occurrence encountered last in document
order among all features with the given id, `none` when the id never
occurs. -/
def lastFeatureEntrySpec (groups : List FeatureGroup) (fid : String) :
    Option FeatureEntry :=
  groups.foldl
    (fun acc group =>
      group.features.foldl
        (fun acc2 feature =>
          if fid = feature.id then some ⟨feature, group.id⟩ else acc2)
        acc)
    none

/-! ### Dynamic (untyped) segment data

At runtime the configuration document is parsed JSON, so a segment's
`combo` can be absent or map a key to a non-list value even though the
TypeScript types forbid it.  `JValue` models such dynamic values and
`matchSegmentDyn` models what the JavaScript of `matchSegment` does on
them: `Object.entries(undefined)` throws a `TypeError`; `for...of` over
a string iterates its characters (each a one-character string), over a
list iterates its elements, and over a number or `undefined` throws a
`TypeError`; calling `.startsWith` on a non-string element throws a
`TypeError`.  On well-typed data it coincides with `matchSegment`
(`matchSegmentDyn_coe` below). -/

/-- A dynamic (JSON-ish) value, as a combo's per-key data may be at
runtime. -/
inductive JValue where
  | jStr : String → JValue
  | jNum : Int → JValue
  | jList : List JValue → JValue
  | jUndef : JValue

/-- JavaScript `for...of` iteration: strings iterate per character,
arrays per element; numbers and `undefined` are not iterable. -/
def jsIterate : JValue → Option (List JValue)
  | .jStr s => some (s.data.map (fun c => JValue.jStr (String.singleton c)))
  | .jList vs => some vs
  | .jNum _ => none
  | .jUndef => none

/-- Message of the `TypeError` thrown by `Object.entries` on `undefined`. -/
def typeErrorNotObject : String :=
  "TypeError: Cannot convert undefined or null to object"

/-- Message of the `TypeError` thrown by `for...of` on a non-iterable. -/
def typeErrorNotIterable : String := "TypeError: values is not iterable"

/-- Message of the `TypeError` thrown when calling `.startsWith` on a
non-string element. -/
def typeErrorNoStartsWith : String :=
  "TypeError: value.startsWith is not a function"

/-- Token loop of `matchSegment` over dynamic token values: a non-string
token throws when `.startsWith` is called on it. -/
def matchTokensDyn (attributeKey userValue : String) :
    List JValue → Bool → Except String (Bool × List Reason)
  | [], matchFound =>
      if matchFound then .ok (true, [])
      else .ok (false, [Reason.noMatchingValue attributeKey])
  | tok :: rest, matchFound =>
      match tok with
      | .jStr t =>
          if startsBang t then
            let negatedValue := t.drop 1
            if userValue = negatedValue then
              .ok (false,
                [Reason.negationViolated attributeKey userValue negatedValue])
            else matchTokensDyn attributeKey userValue rest true
          else
            if userValue = t then matchTokensDyn attributeKey userValue rest true
            else matchTokensDyn attributeKey userValue rest matchFound
      | _ => .error typeErrorNoStartsWith

/-- Key loop of `matchSegment` over dynamic per-key values: the key's
value is iterated with `for...of`, throwing on a non-iterable. -/
def matchEntriesDyn (userAttributes : UserAttributes) :
    List (String × JValue) → Except String (Bool × List Reason)
  | [] => .ok (true, [])
  | (attributeKey, values) :: rest =>
      match userAttributes attributeKey with
      | none => .ok (false, [Reason.attrNotPresent attributeKey])
      | some userValue =>
          if userValue = "" then
            .ok (false, [Reason.attrNotPresent attributeKey])
          else
            match jsIterate values with
            | none => .error typeErrorNotIterable
            | some toks =>
                match matchTokensDyn attributeKey userValue toks false with
                | .error e => .error e
                | .ok m =>
                    if m.1 then
                      match matchEntriesDyn userAttributes rest with
                      | .error e => .error e
                      | .ok m2 => .ok (m2.1, m.2 ++ m2.2)
                    else .ok (false, m.2)

/-- `matchSegment` on a dynamic combo; `none` models an absent (or
`null`) `combo` field, on which `Object.entries` throws. -/
def matchSegmentDyn (userAttributes : UserAttributes) :
    Option (List (String × JValue)) → Except String (Bool × List Reason)
  | none => .error typeErrorNotObject
  | some entries => matchEntriesDyn userAttributes entries

/-- A well-typed combo viewed as dynamic data. -/
def comboToDyn : Combo → List (String × JValue)
  | [] => []
  | e :: rest => (e.1, JValue.jList (e.2.map JValue.jStr)) :: comboToDyn rest

/-! ### Concrete fixtures for counterexamples and witnesses -/

/-- User with `region="CA"` and no other attributes. -/
def regionCAAttrs : UserAttributes :=
  fun k => if k = "region" then some "CA" else none

/-- The combo mapping `region` to the mixed token list `["US", "!EU"]`. -/
def mixedTokenCombo : Combo := [("region", ["US", "!EU"])]

/-- A feature with no segments and no feature-level rollout. -/
def plainFeature : Feature :=
  ⟨"f1", "a feature", "boolean", .vBool false, [], none⟩

/-- Manager over a config holding only `plainFeature`. -/
def plainManager : FeatureManager :=
  mkFeatureManager ⟨[⟨"g1", "a group", [plainFeature]⟩]⟩ "alice" (fun _ => none)

/-- First declared segment of the first-match fixture. -/
def firstSeg : Segment := ⟨[("plan", ["pro"])], .vStr "first", none⟩

/-- Second declared segment of the first-match fixture; matches everyone. -/
def secondSeg : Segment := ⟨[], .vStr "second", none⟩

/-- Feature whose two segments both match the fixture user, with a
feature-level rollout that must stay unconsulted. -/
def twoSegFeature : Feature :=
  ⟨"f1", "a feature", "string", .vStr "default", [firstSeg, secondSeg],
    some ⟨50, .vStr "rolled"⟩⟩

/-- Manager over `twoSegFeature` for a user matching both segments. -/
def twoSegManager : FeatureManager :=
  mkFeatureManager ⟨[⟨"g1", "a group", [twoSegFeature]⟩]⟩ "alice"
    (fun k => if k = "plan" then some "pro" else none)

/-- Manager over an empty configuration. -/
def emptyManager : FeatureManager :=
  mkFeatureManager ⟨[]⟩ "alice" (fun _ => none)

/-- A segment whose combo is the empty mapping. -/
def emptyComboSeg : Segment := ⟨[], .vBool true, none⟩

/-- Feature whose only segment has the empty combo. -/
def emptyComboFeature : Feature :=
  ⟨"f1", "a feature", "boolean", .vBool false, [emptyComboSeg], none⟩

/-- Manager over `emptyComboFeature`. -/
def emptyComboManager : FeatureManager :=
  mkFeatureManager ⟨[⟨"g1", "a group", [emptyComboFeature]⟩]⟩ "alice"
    (fun _ => none)

/-- User whose `plan` attribute is the empty string. -/
def emptyPlanAttrs : UserAttributes :=
  fun k => if k = "plan" then some "" else some "x"

/-! ### Supporting lemmas -/

/-- The bucket is always in `[0, 99]`. -/
theorem hashUser_lt_100 (u g : String) : hashUser u g < 100 :=
  Nat.mod_lt _ (by norm_num)

/-- The value chosen by `evaluateRollout`, as a conditional. -/
theorem evaluateRollout_fst (u g : String) (r : Rollout) (cv : Value) :
    (evaluateRollout u g r cv).1 =
      if (hashUser u g : Int) < r.percentage then cv else r.secondaryValue := by
  unfold evaluateRollout
  by_cases h : (hashUser u g : Int) < r.percentage <;> simp [h]

/-- A matching head segment makes the loop return its outcome. -/
theorem loopValue_cons_match (u g : String) (ua : UserAttributes) (s : Segment)
    (rest : List Segment) (hs : (matchSegment ua s.combo).1 = true) :
    loopValue (evalSegments u g ua (s :: rest)) = some (segmentOutcome u g s) := by
  unfold evalSegments segmentOutcome
  cases hr : s.rollout <;> simp [hs, hr, loopValue]

/-- A non-matching head segment leaves the loop value unchanged. -/
theorem loopValue_cons_nomatch (u g : String) (ua : UserAttributes) (s : Segment)
    (rest : List Segment) (hs : (matchSegment ua s.combo).1 = false) :
    loopValue (evalSegments u g ua (s :: rest)) =
      loopValue (evalSegments u g ua rest) := by
  cases hr : evalSegments u g ua rest with
  | inl p => simp [evalSegments, hs, hr, loopValue]
  | inr tr => simp [evalSegments, hs, hr, loopValue]

/-- When every segment before `s` fails and `s` matches, the loop
returns the outcome of `s`. -/
theorem loopValue_first_match (u g : String) (ua : UserAttributes)
    (pre : List Segment) (s : Segment) (post : List Segment)
    (hpre : ∀ seg ∈ pre, (matchSegment ua seg.combo).1 = false)
    (hs : (matchSegment ua s.combo).1 = true) :
    loopValue (evalSegments u g ua (pre ++ s :: post)) =
      some (segmentOutcome u g s) := by
  induction pre with
  | nil => exact loopValue_cons_match u g ua s post hs
  | cons a t ih =>
      rw [List.cons_append,
        loopValue_cons_nomatch u g ua a (t ++ s :: post) (hpre a (by simp))]
      exact ih (fun seg hseg => hpre seg (by simp [hseg]))

/-- When the segment loop produces an early value, `getFeatureValue`
returns exactly that value. -/
theorem resultValue_of_loopValue (fm : FeatureManager) (featureId : String)
    (entry : FeatureEntry) (v : Value)
    (hmap : fm.featureMap featureId = some entry)
    (hloop : loopValue (evalSegments fm.userId entry.groupId fm.userAttributes
        entry.feature.segments) = some v) :
    resultValue (getFeatureValue fm featureId) = some v := by
  unfold getFeatureValue
  simp only [hmap]
  cases he : evalSegments fm.userId entry.groupId fm.userAttributes
      entry.feature.segments with
  | inl p =>
      rw [he] at hloop
      simp only [loopValue, Option.some.injEq] at hloop
      simp [resultValue, hloop]
  | inr tr =>
      rw [he] at hloop
      simp [loopValue] at hloop

/-- Applying the feature-level fold of the index construction to a key
turns it into a last-wins fold over the features. -/
theorem featureFold_apply (gid : String) (fs : List Feature)
    (m : String → Option FeatureEntry) (k : String) :
    (fs.foldl
      (fun m2 feature =>
        fun x => if x = feature.id then some ⟨feature, gid⟩ else m2 x)
      m) k =
    fs.foldl
      (fun acc feature => if k = feature.id then some ⟨feature, gid⟩ else acc)
      (m k) := by
  induction fs generalizing m with
  | nil => rfl
  | cons f fs ih => rw [List.foldl_cons, List.foldl_cons, ih]

/-- Applying the group-level fold of the index construction to a key
turns it into a last-wins fold over the whole configuration. -/
theorem groupFold_apply (groups : List FeatureGroup)
    (m : String → Option FeatureEntry) (k : String) :
    (groups.foldl
      (fun m2 group =>
        group.features.foldl
          (fun m3 feature =>
            fun x => if x = feature.id then some ⟨feature, group.id⟩ else m3 x)
          m2)
      m) k =
    groups.foldl
      (fun acc group =>
        group.features.foldl
          (fun acc2 feature =>
            if k = feature.id then some ⟨feature, group.id⟩ else acc2)
          acc)
      (m k) := by
  induction groups generalizing m with
  | nil => rfl
  | cons g gs ih => rw [List.foldl_cons, List.foldl_cons, ih, featureFold_apply]

/-- The constructed feature index is exactly the last-occurrence map. -/
theorem buildFeatureMap_apply (groups : List FeatureGroup) (k : String) :
    buildFeatureMap groups k = lastFeatureEntrySpec groups k :=
  groupFold_apply groups (fun _ => none) k

/-- On well-typed token lists the dynamic token loop never throws and
agrees with the typed one. -/
theorem matchTokensDyn_coe (attributeKey userValue : String)
    (vs : List String) (mf : Bool) :
    matchTokensDyn attributeKey userValue (vs.map JValue.jStr) mf =
      .ok (matchTokens attributeKey userValue vs mf) := by
  induction vs generalizing mf with
  | nil => cases mf <;> rfl
  | cons t ts ih =>
      simp only [List.map_cons, matchTokensDyn, matchTokens]
      by_cases hb : startsBang t
      · by_cases hv : userValue = t.drop 1
        · simp [hb, hv]
        · simp [hb, hv, ih]
      · by_cases hv : userValue = t
        · subst hv
          simp [hb, ih]
        · simp [hb, hv, ih]

/-- On well-typed combos the dynamic matcher never throws and agrees
with `matchSegment`. -/
theorem matchSegmentDyn_coe (ua : UserAttributes) (combo : Combo) :
    matchSegmentDyn ua (some (comboToDyn combo)) = .ok (matchSegment ua combo) := by
  simp only [matchSegmentDyn]
  induction combo with
  | nil => rfl
  | cons e rest ih =>
      obtain ⟨k, vs⟩ := e
      simp only [comboToDyn, matchEntriesDyn, matchSegment]
      cases hak : ua k with
      | none => rfl
      | some v =>
          by_cases hv : v = ""
          · simp [hv]
          · simp only [hv, if_neg, jsIterate, matchTokensDyn_coe, ih]
            by_cases hm : (matchTokens k v vs false).1 <;> simp [hm]

/-! ### Claims -/

/-- Claim C1, counterexample: for the combo mapping `region` to
`["US", "!EU"]` and a user with `region="CA"`, `matchSegment` returns
`true`, not `false` as the claim states — the non-violated negation
token `"!EU"` sets the key's `matchFound` flag, so the key (and the
segment) is satisfied. -/
theorem c1_counterexample :
    (matchSegment regionCAAttrs mixedTokenCombo).1 = true := by decide

/-- Claim C1 (amended): for the combo mapping `region` to
`["US", "!EU"]`, every present, non-empty user `region` value other
than `"US"` and `"EU"` makes the segment match (return `true`): a
satisfied negation alone counts as a match for the key. -/
theorem c1_nonmatched_value_still_matches (v : String)
    (h0 : v ≠ "") (h1 : v ≠ "US") (h2 : v ≠ "EU") :
    (matchSegment (fun k => if k = "region" then some v else none)
      mixedTokenCombo).1 = true := by
  have hUS : startsBang "US" = false := rfl
  have hEU : startsBang "!EU" = true := rfl
  have hdrop : "!EU".drop 1 = "EU" := rfl
  simp [mixedTokenCombo, matchSegment, matchTokens, hUS, hEU, hdrop, h0, h1, h2]

/-- Claim C1, witness: the amended theorem applied at `v = "CA"`. -/
theorem c1_witness :
    (("CA" : String) ≠ "" ∧ ("CA" : String) ≠ "US" ∧ ("CA" : String) ≠ "EU") ∧
    (matchSegment (fun k => if k = "region" then some "CA" else none)
      mixedTokenCombo).1 = true :=
  ⟨⟨by decide, by decide, by decide⟩,
    c1_nonmatched_value_still_matches "CA" (by decide) (by decide) (by decide)⟩

/-- Claim C2, counterexample: the feature `plainFeature` has no segments
and no rollout, yet its evaluation produces a reasoning trace of three
entries ("no segments matched", "no feature-level rollout", final value
line), not two as the claim states. -/
theorem c2_counterexample :
    resultReasoningLength (getFeatureValue plainManager "f1") = some 3 ∧
    resultReasoningLength (getFeatureValue plainManager "f1") ≠ some 2 ∧
    resultValue (getFeatureValue plainManager "f1") = some (Value.vBool false) := by
  refine ⟨rfl, by decide, rfl⟩

/-- Claim C2 (amended): for every feature with an empty segments list
and no feature-level rollout, and every user context, evaluation
returns the feature's default value with a reasoning trace of exactly
three entries: the no-segments line, the no-rollout line and the final
value line. -/
theorem c2_default_fallback_three_entries (fm : FeatureManager)
    (featureId : String) (entry : FeatureEntry)
    (hmap : fm.featureMap featureId = some entry)
    (hseg : entry.feature.segments = [])
    (hroll : entry.feature.rollout = none) :
    getFeatureValue fm featureId =
      .ok ⟨entry.feature.value,
        [Reason.noSegmentsMatched, Reason.noFeatureRollout,
         Reason.finalValue entry.feature.value]⟩ := by
  unfold getFeatureValue
  simp only [hmap]
  rw [hseg]
  simp [evalSegments, hroll]

/-- Claim C2, witness: the amended theorem applied to `plainManager`. -/
theorem c2_witness :
    plainManager.featureMap "f1" = some ⟨plainFeature, "g1"⟩ ∧
    getFeatureValue plainManager "f1" =
      .ok ⟨Value.vBool false,
        [Reason.noSegmentsMatched, Reason.noFeatureRollout,
         Reason.finalValue (Value.vBool false)]⟩ :=
  ⟨rfl, c2_default_fallback_three_entries plainManager "f1"
    ⟨plainFeature, "g1"⟩ rfl rfl rfl⟩

/-- Claim C3: for every rollout and every `(userId, groupId)` pair, a
percentage of 0 makes `evaluateRollout` return the rollout's secondary
value, and a percentage of 100 makes it return the pre-rollout
(current) value. -/
theorem c3_rollout_threshold_boundaries (u g : String) (r : Rollout)
    (cv : Value) :
    (r.percentage = 0 → (evaluateRollout u g r cv).1 = r.secondaryValue) ∧
    (r.percentage = 100 → (evaluateRollout u g r cv).1 = cv) := by
  constructor
  · intro h
    rw [evaluateRollout_fst, h,
      if_neg (not_lt.mpr (Int.natCast_nonneg (hashUser u g)))]
  · intro h
    rw [evaluateRollout_fst, h,
      if_pos (by exact_mod_cast hashUser_lt_100 u g)]

/-- Claim C3, witness: the theorem applied to concrete rollouts with
percentages 0 and 100. -/
theorem c3_witness :
    ((⟨0, Value.vBool true⟩ : Rollout).percentage = 0 ∧
      (evaluateRollout "alice" "g1" ⟨0, Value.vBool true⟩
        (Value.vBool false)).1 = Value.vBool true) ∧
    ((⟨100, Value.vStr "s"⟩ : Rollout).percentage = 100 ∧
      (evaluateRollout "alice" "g1" ⟨100, Value.vStr "s"⟩
        (Value.vNum 7)).1 = Value.vNum 7) :=
  ⟨⟨rfl, (c3_rollout_threshold_boundaries "alice" "g1" ⟨0, Value.vBool true⟩
      (Value.vBool false)).1 rfl⟩,
   ⟨rfl, (c3_rollout_threshold_boundaries "alice" "g1" ⟨100, Value.vStr "s"⟩
      (Value.vNum 7)).2 rfl⟩⟩

/-- Claim C4: the bucketer `hashUser` is a pure function of
`(userId, groupId)`: its result always lies in `[0, 99]` (it is a `Nat`
below 100), and two calls with equal user ids and equal group ids
return the same bucket. -/
theorem c4_bucket_deterministic_in_range (u₁ g₁ u₂ g₂ : String)
    (hu : u₁ = u₂) (hg : g₁ = g₂) :
    hashUser u₁ g₁ < 100 ∧ hashUser u₁ g₁ = hashUser u₂ g₂ :=
  ⟨hashUser_lt_100 u₁ g₁, by rw [hu, hg]⟩

/-- Claim C4, witness: the theorem applied at
`userId = "alice"`, `groupId = "g1"`. -/
theorem c4_witness :
    hashUser "alice" "g1" < 100 ∧
    hashUser "alice" "g1" = hashUser "alice" "g1" :=
  c4_bucket_deterministic_in_range "alice" "g1" "alice" "g1" rfl rfl

/-- Claim C5: if the feature's segment list splits as
`pre ++ s :: post` where no segment of `pre` matches and `s` matches,
evaluation returns exactly the outcome of `s` — its value, possibly
replaced through its own rollout — an expression in which neither the
segments of `post` nor the feature's default value or feature-level
rollout occurs. -/
theorem c5_first_match_wins (fm : FeatureManager) (featureId : String)
    (entry : FeatureEntry) (pre : List Segment) (s : Segment)
    (post : List Segment)
    (hmap : fm.featureMap featureId = some entry)
    (hseg : entry.feature.segments = pre ++ s :: post)
    (hpre : ∀ seg ∈ pre, (matchSegment fm.userAttributes seg.combo).1 = false)
    (hs : (matchSegment fm.userAttributes s.combo).1 = true) :
    resultValue (getFeatureValue fm featureId) =
      some (segmentOutcome fm.userId entry.groupId s) :=
  resultValue_of_loopValue fm featureId entry _ hmap
    (by rw [hseg]
        exact loopValue_first_match _ _ _ pre s post hpre hs)

/-- Claim C5, witness: in `twoSegManager` both declared segments match
the user, the feature carries a default value and a feature-level
rollout, and evaluation returns the first segment's value `"first"`. -/
theorem c5_witness :
    resultValue (getFeatureValue twoSegManager "f1") =
      some (Value.vStr "first") :=
  c5_first_match_wins twoSegManager "f1" ⟨twoSegFeature, "g1"⟩ [] firstSeg
    [secondSeg] rfl rfl
    (fun seg hseg => absurd hseg (List.not_mem_nil seg)) rfl

/-- Claim C6: for every configuration and feature id absent from the
feature index, evaluation fails with the feature-not-found error and
carries no reasoning trace (the error holds only the message). -/
theorem c6_unknown_feature_error (fm : FeatureManager) (featureId : String)
    (hmap : fm.featureMap featureId = none) :
    getFeatureValue fm featureId =
      .error ("Feature with id \"" ++ featureId ++ "\" not found.") := by
  unfold getFeatureValue
  simp [hmap]

/-- Claim C6, witness: the theorem applied to the empty configuration
and the feature id `"nope"`. -/
theorem c6_witness :
    emptyManager.featureMap "nope" = none ∧
    getFeatureValue emptyManager "nope" =
      .error "Feature with id \"nope\" not found." :=
  ⟨rfl, c6_unknown_feature_error emptyManager "nope" rfl⟩

/-- Claim C7, counterexample: on a segment with an absent `combo`,
segment matching does not return `false` — it throws the `TypeError` of
`Object.entries(undefined)`, so the claim's fails-closed behavior does
not hold. -/
theorem c7_counterexample :
    matchSegmentDyn (fun _ => none) none = .error typeErrorNotObject := rfl

/-- Claim C7 (amended): on malformed segment data the matcher throws
rather than failing closed: an absent `combo` raises the
`Object.entries` `TypeError`, and an attribute key mapped to a
non-iterable value (a number) raises the `for...of` `TypeError` once
the user has a non-empty value for that key; evaluation does not
proceed to later segments. -/
theorem c7_malformed_combo_throws (ua : UserAttributes)
    (attributeKey v : String) (n : Int) (rest : List (String × JValue))
    (hk : ua attributeKey = some v) (hv : v ≠ "") :
    matchSegmentDyn ua none = .error typeErrorNotObject ∧
    matchSegmentDyn ua (some ((attributeKey, JValue.jNum n) :: rest)) =
      .error typeErrorNotIterable := by
  refine ⟨rfl, ?_⟩
  simp [matchSegmentDyn, matchEntriesDyn, hk, hv, jsIterate]

/-- Claim C7, witness: the amended theorem applied to a user with
`region="US"` and a combo mapping `region` to the number `5`. -/
theorem c7_witness :
    matchSegmentDyn (fun k => if k = "region" then some "US" else none) none =
      .error typeErrorNotObject ∧
    matchSegmentDyn (fun k => if k = "region" then some "US" else none)
      (some [("region", JValue.jNum 5)]) = .error typeErrorNotIterable :=
  c7_malformed_combo_throws (fun k => if k = "region" then some "US" else none)
    "region" "US" 5 [] rfl (by decide)

/-- Claim C8: an attribute key whose user value is the empty string is
treated exactly like an absent attribute: when the key is reached the
segment fails immediately with the attribute-not-present trace entry,
and matching with the key present-but-empty coincides with matching
with the key removed, on every combo. -/
theorem c8_empty_string_attr_like_absent (ua : UserAttributes)
    (attributeKey : String) (h : ua attributeKey = some "") :
    (∀ (values : List String) (rest : Combo),
        matchSegment ua ((attributeKey, values) :: rest) =
          (false, [Reason.attrNotPresent attributeKey])) ∧
    (∀ combo : Combo,
        matchSegment ua combo =
          matchSegment (fun k => if k = attributeKey then none else ua k)
            combo) := by
  constructor
  · intro values rest
    simp [matchSegment, h]
  · intro combo
    induction combo with
    | nil => rfl
    | cons e rest ih =>
        obtain ⟨k, vs⟩ := e
        by_cases hk : k = attributeKey
        · subst hk
          simp [matchSegment, h]
        · simp only [matchSegment, if_neg hk, ih]

/-- Claim C8, witness: the theorem applied to `emptyPlanAttrs`, whose
`plan` attribute is present but empty, and the combo requiring
`plan="pro"`. -/
theorem c8_witness :
    emptyPlanAttrs "plan" = some "" ∧
    matchSegment emptyPlanAttrs [("plan", ["pro"])] =
      (false, [Reason.attrNotPresent "plan"]) ∧
    matchSegment emptyPlanAttrs [("plan", ["pro"])] =
      matchSegment (fun k => if k = "plan" then none else emptyPlanAttrs k)
        [("plan", ["pro"])] :=
  ⟨rfl,
    (c8_empty_string_attr_like_absent emptyPlanAttrs "plan" rfl).1 ["pro"] [],
    (c8_empty_string_attr_like_absent emptyPlanAttrs "plan" rfl).2
      [("plan", ["pro"])]⟩

/-- Claim C9: a segment whose combo is the empty mapping matches every
user attribute mapping, and placed first in a feature's segment list it
alone determines the evaluation result. -/
theorem c9_empty_combo_always_matches (ua : UserAttributes)
    (fm : FeatureManager) (featureId : String) (entry : FeatureEntry)
    (s : Segment) (rest : List Segment)
    (hmap : fm.featureMap featureId = some entry)
    (hseg : entry.feature.segments = s :: rest)
    (hcombo : s.combo = []) :
    matchSegment ua s.combo = (true, []) ∧
    resultValue (getFeatureValue fm featureId) =
      some (segmentOutcome fm.userId entry.groupId s) := by
  constructor
  · rw [hcombo]
    rfl
  · exact resultValue_of_loopValue fm featureId entry _ hmap
      (by rw [hseg]
          exact loopValue_cons_match _ _ _ s rest (by rw [hcombo]; rfl))

/-- Claim C9, witness: the theorem applied to `emptyComboManager`,
whose only feature's first segment has an empty combo; the attribute
mapping is empty and the result is the segment's value `true`. -/
theorem c9_witness :
    matchSegment (fun _ => none) emptyComboSeg.combo = (true, []) ∧
    resultValue (getFeatureValue emptyComboManager "f1") =
      some (Value.vBool true) :=
  c9_empty_combo_always_matches (fun _ => none) emptyComboManager "f1"
    ⟨emptyComboFeature, "g1"⟩ emptyComboSeg [] rfl rfl rfl

/-- Claim C10: the constructed feature index keeps, for every feature
id, exactly the occurrence encountered last in document order together
with its owning group's id (the construction never fails on
duplicates), and evaluation reads features only through that index. -/
theorem c10_duplicate_id_last_occurrence_wins (groups : List FeatureGroup)
    (fid : String) :
    buildFeatureMap groups fid = lastFeatureEntrySpec groups fid ∧
    ∀ (uid : String) (ua : UserAttributes),
      getFeatureValue (mkFeatureManager ⟨groups⟩ uid ua) fid =
        getFeatureValue ⟨fun k => lastFeatureEntrySpec groups k, uid, ua⟩ fid := by
  refine ⟨buildFeatureMap_apply groups fid, ?_⟩
  intro uid ua
  unfold getFeatureValue mkFeatureManager
  simp only [buildFeatureMap_apply]

end FeaturesPOC
